import Mathlib

set_option maxRecDepth 8000

/-!
Verification of the serial Stop-and-Wait file-transfer protocol
(src/protocolo.py) against its natural-language specification.

The Python source is shallowly embedded: bytes are `Nat` values below 256,
byte strings are `List Nat`, machine integers are `Nat` (the Python code
masks with 0xFFFFFFFF where it matters), and the serial link is modelled as
the list of bytes that arrive before the relevant read deadlines.  All
definitions are translated line by line from src/protocolo.py; the only
definition taken from the specification text instead of the source is the
independent CRC-32 reference `crc32_ref`, which the source is compared
against.
-/

/-! ## Global configuration constants (src/protocolo.py lines 10-25) -/

def BLOCK_SIZE : Nat := 100

def CRC_SIZE : Nat := 4

def SEQ_SIZE : Nat := 1

def MAX_PACKET_SIZE : Nat := SEQ_SIZE + CRC_SIZE + 4 + BLOCK_SIZE

def MAX_RETRANS : Nat := 5

/-- Control signal b'END\n' (src/protocolo.py line 18), as raw bytes. -/
def END_SIGNAL : List Nat := [69, 78, 68, 10]

/-- Control byte b'A' (ACK_CHAR, src/protocolo.py line 20). -/
def ACK_CHAR : Nat := 65

/-- Control byte b'N' (NAK_CHAR, src/protocolo.py line 21). -/
def NAK_CHAR : Nat := 78

/-! ## Little-endian 32-bit packing (Python struct.pack / struct.unpack '<I') -/

/-- Model of struct.pack with format <I: the four bytes of a 32-bit value,
least significant first. -/
def packLE4 (v : Nat) : List Nat :=
  [v &&& 0xFF, (v >>> 8) &&& 0xFF, (v >>> 16) &&& 0xFF, (v >>> 24) &&& 0xFF]

/-- Model of struct.unpack with format <I applied to a 4-byte slice. -/
def unpackLE4 (l : List Nat) : Nat :=
  l.getD 0 0 + l.getD 1 0 * 256 + l.getD 2 0 * 65536 + l.getD 3 0 * 16777216

/-! ## CRC-32 engine (src/protocolo.py lines 37-56) -/

def POLYNOMIAL : Nat := 0xEDB88320

/-- Body of the inner loop of generate_crc_table (line 48):
crc = (crc >> 1) ^ POLYNOMIAL if (crc & 1) else (crc >> 1). -/
def crcStep (crc : Nat) : Nat :=
  if crc &&& 1 = 1 then (crc >>> 1) ^^^ POLYNOMIAL else crc >>> 1

/-- Entry i of the table built by generate_crc_table (lines 45-49): start
from i, apply the bit step eight times, mask to 32 bits. -/
def crcTableEntry (i : Nat) : Nat :=
  (crcStep^[8] i) &&& 0xFFFFFFFF

/-- The 256-entry table produced by generate_crc_table (lines 41-49). -/
def CRC_TABLE : List Nat :=
  (List.range 256).map crcTableEntry

/-- Body of the loop of calculate_crc32 (line 55):
crc = (crc >> 8) ^ CRC_TABLE[(crc ^ byte) & 0xFF]. -/
def crcByteUpdate (crc b : Nat) : Nat :=
  (crc >>> 8) ^^^ CRC_TABLE.getD ((crc ^^^ b) &&& 0xFF) 0

/-- The 32-bit value computed by calculate_crc32 (lines 52-56) before
packing: crc starts at 0xFFFFFFFF, each byte updates it through the table,
and the result is XORed with 0xFFFFFFFF. -/
def crcValue (data : List Nat) : Nat :=
  (data.foldl crcByteUpdate 0xFFFFFFFF) ^^^ 0xFFFFFFFF

/-- calculate_crc32 (lines 52-56): the CRC value packed little-endian, as
returned to callers. -/
def calculate_crc32 (data : List Nat) : List Nat :=
  packLE4 (crcValue data)

/-- Modelled from the spec: an independent bitwise (non-table) reference for
the reflected IEEE 802.3 CRC-32, following the specification words
"polynomial 0xEDB88320, init 0xFFFFFFFF, reflected, final XOR 0xFFFFFFFF".
Each input byte is XORed into the accumulator, which is then reduced bit by
bit: an odd accumulator is halved and XORed with the polynomial, an even one
is just halved. -/
def crc32_refStep (c : Nat) : Nat :=
  if c % 2 = 1 then c / 2 ^^^ 0xEDB88320 else c / 2

/-- Modelled from the spec: one byte of the reference computation, the byte
XORed in followed by eight bit reductions. -/
def crc32_refByte (crc b : Nat) : Nat :=
  crc32_refStep^[8] (crc ^^^ b)

/-- Modelled from the spec: the full reference checksum. -/
def crc32_ref (data : List Nat) : Nat :=
  (data.foldl crc32_refByte 0xFFFFFFFF) ^^^ 0xFFFFFFFF

example : crcValue [49, 50, 51, 52, 53, 54, 55, 56, 57] = 0xCBF43926 := by decide
example : crc32_ref [49, 50, 51, 52, 53, 54, 55, 56, 57] = 0xCBF43926 := by decide
example : crcValue [] = 0 := by decide
example : unpackLE4 (packLE4 0xCBF43926) = 0xCBF43926 := by decide

/-! ## CRC-32: the table-driven loop agrees with the bitwise reference -/

lemma shiftRight_xor_distrib (a b n : Nat) : (a ^^^ b) >>> n = a >>> n ^^^ b >>> n := by
  apply Nat.eq_of_testBit_eq
  intro i
  simp [Nat.testBit_shiftRight, Nat.testBit_xor]

lemma crcStep_zero : crcStep 0 = 0 := by decide

lemma xor_xor_cancel_right (x y p : Nat) : (x ^^^ p) ^^^ (y ^^^ p) = x ^^^ y := by
  rw [Nat.xor_comm y p, Nat.xor_assoc, ← Nat.xor_assoc p p y, Nat.xor_self,
    Nat.zero_xor]

lemma xor_mod_two_same (a b : Nat) (h : a % 2 = b % 2) : (a ^^^ b) % 2 = 0 := by
  rcases Nat.mod_two_eq_zero_or_one (a ^^^ b) with hx | hx
  · exact hx
  · have := Nat.xor_mod_two_eq_one.mp hx
    exact absurd (by omega : (a % 2 = 1 ↔ b % 2 = 1)) this

lemma xor_mod_two_diff (a b : Nat) (h : a % 2 ≠ b % 2) : (a ^^^ b) % 2 = 1 := by
  refine Nat.xor_mod_two_eq_one.mpr ?_
  have ha := Nat.mod_two_eq_zero_or_one a
  have hb := Nat.mod_two_eq_zero_or_one b
  intro hiff
  omega

lemma crcStep_xor (a b : Nat) : crcStep (a ^^^ b) = crcStep a ^^^ crcStep b := by
  have hab : (a ^^^ b) >>> 1 = a >>> 1 ^^^ b >>> 1 := shiftRight_xor_distrib a b 1
  simp only [crcStep, Nat.and_one_is_mod]
  rcases Nat.mod_two_eq_zero_or_one a with ha | ha <;>
    rcases Nat.mod_two_eq_zero_or_one b with hb | hb
  · have hx : (a ^^^ b) % 2 = 0 := xor_mod_two_same a b (by omega)
    rw [if_neg (by omega : ¬(a ^^^ b) % 2 = 1), if_neg (by omega : ¬a % 2 = 1),
      if_neg (by omega : ¬b % 2 = 1), hab]
  · have hx : (a ^^^ b) % 2 = 1 := xor_mod_two_diff a b (by omega)
    rw [if_pos hx, if_neg (by omega : ¬a % 2 = 1), if_pos hb, hab, Nat.xor_assoc]
  · have hx : (a ^^^ b) % 2 = 1 := xor_mod_two_diff a b (by omega)
    rw [if_pos hx, if_pos ha, if_neg (by omega : ¬b % 2 = 1), hab, Nat.xor_assoc,
      Nat.xor_assoc, Nat.xor_comm (b >>> 1) POLYNOMIAL]
  · have hx : (a ^^^ b) % 2 = 0 := xor_mod_two_same a b (by omega)
    rw [if_neg (by omega : ¬(a ^^^ b) % 2 = 1), if_pos ha, if_pos hb, hab,
      xor_xor_cancel_right]

lemma crcStep_iterate_xor (n a b : Nat) :
    crcStep^[n] (a ^^^ b) = crcStep^[n] a ^^^ crcStep^[n] b := by
  induction n generalizing a b with
  | zero => rfl
  | succ n ih => rw [Function.iterate_succ_apply, Function.iterate_succ_apply,
      Function.iterate_succ_apply, crcStep_xor, ih]

lemma byte_decomposition (x : Nat) : x = ((x >>> 8) <<< 8) ^^^ (x &&& 255) := by
  apply Nat.eq_of_testBit_eq
  intro i
  simp only [Nat.testBit_xor, Nat.testBit_and, Nat.testBit_shiftLeft, Nat.testBit_shiftRight]
  by_cases h : i < 8
  · have h255 : Nat.testBit 255 i = true := by
      interval_cases i <;> decide
    simp [h255, Nat.not_le.mpr h]
  · have h8 : 8 ≤ i := Nat.le_of_not_lt h
    have h255 : Nat.testBit 255 i = false := by
      have : (255 : Nat) < 2 ^ i :=
        lt_of_lt_of_le (by norm_num) (Nat.pow_le_pow_right (by norm_num) h8)
      exact Nat.testBit_lt_two_pow this
    have : 8 + (i - 8) = i := by omega
    simp [h8, h255, this]

lemma crcStep_double (y : Nat) : crcStep (2 * y) = y := by
  have h1 : (2 * y) &&& 1 = 0 := by
    rw [Nat.and_one_is_mod]
    omega
  have h2 : (2 * y) >>> 1 = y := by
    rw [Nat.shiftRight_eq_div_pow]
    omega
  simp [crcStep, h1, h2]

lemma crcStep_iterate_shiftLeft (k y : Nat) : crcStep^[k] (y <<< k) = y := by
  induction k generalizing y with
  | zero => simp
  | succ k ih =>
    have h1 : y <<< (k + 1) = 2 * (y <<< k) := by
      rw [Nat.shiftLeft_eq, Nat.shiftLeft_eq, pow_succ]
      ring
    rw [Function.iterate_succ_apply, h1, crcStep_double]
    exact ih y

lemma CRC_TABLE_getD (i : Nat) (h : i < 256) : CRC_TABLE.getD i 0 = crcStep^[8] i := by
  revert h
  revert i
  decide

lemma crc32_refStep_eq_crcStep : crc32_refStep = crcStep := by
  funext c
  simp only [crc32_refStep, crcStep, Nat.and_one_is_mod, POLYNOMIAL,
    Nat.shiftRight_eq_div_pow, pow_one]

lemma crcByteUpdate_eq_refByte (crc b : Nat) (hb : b < 256) :
    crcByteUpdate crc b = crc32_refByte crc b := by
  have hidx : (crc ^^^ b) &&& 0xFF < 256 := by
    have : (crc ^^^ b) &&& 255 ≤ 255 := Nat.and_le_right
    omega
  have hshift : (crc ^^^ b) >>> 8 = crc >>> 8 := by
    rw [shiftRight_xor_distrib]
    have : b >>> 8 = 0 := by
      rw [Nat.shiftRight_eq_div_pow]
      omega
    rw [this, Nat.xor_zero]
  calc crcByteUpdate crc b
      = (crc >>> 8) ^^^ CRC_TABLE.getD ((crc ^^^ b) &&& 0xFF) 0 := rfl
    _ = (crc >>> 8) ^^^ crcStep^[8] ((crc ^^^ b) &&& 0xFF) := by
        rw [CRC_TABLE_getD _ hidx]
    _ = ((crc ^^^ b) >>> 8) ^^^ crcStep^[8] ((crc ^^^ b) &&& 255) := by
        rw [hshift]
    _ = crcStep^[8] (((crc ^^^ b) >>> 8) <<< 8) ^^^ crcStep^[8] ((crc ^^^ b) &&& 255) := by
        rw [crcStep_iterate_shiftLeft]
    _ = crcStep^[8] ((((crc ^^^ b) >>> 8) <<< 8) ^^^ ((crc ^^^ b) &&& 255)) := by
        rw [crcStep_iterate_xor]
    _ = crcStep^[8] (crc ^^^ b) := by
        rw [← byte_decomposition]
    _ = crc32_refByte crc b := by
        rw [crc32_refByte, crc32_refStep_eq_crcStep]

lemma crc_foldl_eq_ref (data : List Nat) (hdata : ∀ b ∈ data, b < 256) :
    ∀ crc, data.foldl crcByteUpdate crc = data.foldl crc32_refByte crc := by
  induction data with
  | nil => intro crc; rfl
  | cons b rest ih =>
    intro crc
    have hb : b < 256 := hdata b (List.mem_cons_self b rest)
    have hrest : ∀ x ∈ rest, x < 256 := fun x hx => hdata x (List.mem_cons_of_mem b hx)
    simp only [List.foldl_cons]
    rw [crcByteUpdate_eq_refByte crc b hb, ih hrest]

/-- C3: the CRC function of the source is the table-driven reflected IEEE
802.3 CRC-32.  The table has 256 entries generated from polynomial
0xEDB88320 (definitions CRC_TABLE and crcStep), the accumulator starts at
0xFFFFFFFF, each byte b updates it as crc = (crc >> 8) ^ TABLE[(crc ^ b) &
0xFF], the result is crc ^ 0xFFFFFFFF, and on every byte sequence the result
equals the independent bitwise reference implementation crc32_ref. -/
theorem calculate_crc32_matches_reference :
    CRC_TABLE.length = 256 ∧
      ∀ B : List Nat, (∀ b ∈ B, b < 256) → crcValue B = crc32_ref B := by
  constructor
  · decide
  · intro B hB
    unfold crcValue crc32_ref
    rw [crc_foldl_eq_ref B hB]

/-- Witness for C3 at the standard CRC-32 check input "123456789": the
hypothesis holds and the table-driven value, the reference value and the
well-known check value 0xCBF43926 all agree. -/
theorem calculate_crc32_matches_reference_witness :
    (∀ b ∈ [49, 50, 51, 52, 53, 54, 55, 56, 57], b < 256) ∧
      crcValue [49, 50, 51, 52, 53, 54, 55, 56, 57] =
        crc32_ref [49, 50, 51, 52, 53, 54, 55, 56, 57] ∧
      crcValue [49, 50, 51, 52, 53, 54, 55, 56, 57] = 0xCBF43926 :=
  ⟨by decide,
   calculate_crc32_matches_reference.2 [49, 50, 51, 52, 53, 54, 55, 56, 57] (by decide),
   by decide⟩

/-! ## Receiver state machine (src/protocolo.py lines 201-279)

The serial link is modelled by the list of bytes that arrive in time for
the successive reads of the receiver loop: receive_with_timeout(ser, n, t)
returns the next min(n, remaining) bytes of that list, and an exhausted
list models a read that times out.  Real-time durations themselves (the
10 s header deadline, the 1 s header-rest deadline, the 2 s payload
deadline) are not represented; only their observable outcome is, namely
how many bytes each read returns. -/

/-- Mutable state of the receiver session: expected_seq_num (an arbitrary
Python int, hence Int), current_block, the bytes written to the output
file so far, and the checkpoint file content (none when the checkpoint
file does not exist). -/
structure RState where
  expected_seq : Int
  current_block : Nat
  file : List Nat
  checkpoint : Option Nat
  deriving DecidableEq

/-- Result of one iteration of the receiver loop: the input bytes left for
the next iteration, the new state, the response bytes written to the
serial port, and the payload written to the output file by this iteration,
if any. -/
structure IterResult where
  rem : List Nat
  st : RState
  out : List Nat
  written : Option (List Nat)
  deriving DecidableEq

/-- One iteration of the receiver while-loop (lines 236-275), after the
1-byte header read succeeded: read up to 8 further header bytes (NAK if
fewer arrive), decode crc and payload length, read the payload (NAK if
short), check the CRC (NAK on mismatch), handle the sequence number
(re-ACK a duplicate, NAK an unexpected value), and otherwise write the
payload, ACK, flip the expected sequence number, increment the block
counter and save the checkpoint. -/
def receptorIter (header : Nat) (rest : List Nat) (st : RState) : IterResult :=
  let header_rest := rest.take 8
  let afterHeader := rest.drop 8
  if header_rest.length < 8 then
    ⟨afterHeader, st, [NAK_CHAR], none⟩
  else
    let seq := header
    let recv_crc := header_rest.take 4
    let data_len := unpackLE4 (header_rest.drop 4)
    let data := afterHeader.take data_len
    let rem2 := afterHeader.drop data_len
    if data.length ≠ data_len then
      ⟨rem2, st, [NAK_CHAR], none⟩
    else if calculate_crc32 data ≠ recv_crc then
      ⟨rem2, st, [NAK_CHAR], none⟩
    else if (seq : Int) ≠ st.expected_seq then
      if (seq : Int) = 1 - st.expected_seq then
        ⟨rem2, st, [ACK_CHAR], none⟩
      else
        ⟨rem2, st, [NAK_CHAR], none⟩
    else
      ⟨rem2,
       { expected_seq := 1 - st.expected_seq,
         current_block := st.current_block + 1,
         file := st.file ++ data,
         checkpoint := some (st.current_block + 1) },
       [ACK_CHAR], some data⟩

/-- The receiver while-loop (lines 235-279), structurally recursive on a
fuel argument.  When the 1-byte header read returns nothing (the 10 s
timeout, line 238), the loop breaks; the code that follows the loop then
closes the output file and unconditionally calls remove_checkpoint
(lines 277-279), modelled by checkpoint := none.  The returned list is
the sequence of response bytes written to the serial port. -/
def receptorRun : Nat → List Nat → RState → RState × List Nat
  | 0, _, st => ({ st with checkpoint := none }, [])
  | _ + 1, [], st => ({ st with checkpoint := none }, [])
  | fuel + 1, header :: rest, st =>
      let r := receptorIter header rest st
      let p := receptorRun fuel r.rem r.st
      (p.1, r.out ++ p.2)

/-- The receiver session on a given incoming byte list: the loop with
enough fuel to consume the whole list (each iteration consumes at least
the header byte). -/
def receptorLoop (input : List Nat) (st : RState) : RState × List Nat :=
  receptorRun (input.length + 1) input st

/-- Instrumented copy of the receiver loop recording, after every
iteration, the state together with the list of payloads accepted so far
(each f_out.write of line 269 appends one entry).  Same branching as
receptorRun through receptorIter. -/
def receptorTraceRun :
    Nat → List Nat → RState → List (List Nat) → List (RState × List (List Nat))
  | 0, _, _, _ => []
  | _ + 1, [], _, _ => []
  | fuel + 1, header :: rest, st, acc =>
      let r := receptorIter header rest st
      let acc2 := match r.written with
        | some d => acc ++ [d]
        | none => acc
      (r.st, acc2) :: receptorTraceRun fuel r.rem r.st acc2

/-- The instrumented receiver session from a given starting state. -/
def receptorTrace (input : List Nat) (st : RState) : List (RState × List (List Nat)) :=
  receptorTraceRun (input.length + 1) input st []

example :
    receptorLoop [69, 78, 68, 10] ⟨1, 3, [1, 2, 3], some 3⟩ =
      (⟨1, 3, [1, 2, 3], none⟩, [78]) := by decide

example :
    receptorIter 0 [0, 0, 0, 0, 0, 0, 0, 0] ⟨0, 0, [], none⟩ =
      ⟨[], ⟨1, 1, [], some 1⟩, [65], some []⟩ := by decide

/-! ## Receiver loop infrastructure lemmas -/

lemma receptorIter_rem_le (header : Nat) (rest : List Nat) (st : RState) :
    (receptorIter header rest st).rem.length ≤ rest.length := by
  simp only [receptorIter]
  split_ifs <;> simp only [List.length_drop] <;> omega

lemma receptorRun_nil (f : Nat) (st : RState) (hf : 0 < f) :
    receptorRun f [] st = ({ st with checkpoint := none }, []) := by
  match f, hf with
  | f + 1, _ => rfl

lemma receptorRun_fuel_eq :
    ∀ (n : Nat) (input : List Nat), input.length ≤ n →
      ∀ (f g : Nat) (st : RState), input.length < f → input.length < g →
        receptorRun f input st = receptorRun g input st := by
  intro n
  induction n with
  | zero =>
    intro input hlen f g st hf hg
    match input, hlen with
    | [], _ => rw [receptorRun_nil f st (by omega), receptorRun_nil g st (by omega)]
  | succ n ih =>
    intro input hlen f g st hf hg
    cases input with
    | nil => rw [receptorRun_nil f st (by omega), receptorRun_nil g st (by omega)]
    | cons header rest =>
      obtain ⟨f', rfl⟩ : ∃ f', f = f' + 1 := ⟨f - 1, by omega⟩
      obtain ⟨g', rfl⟩ : ∃ g', g = g' + 1 := ⟨g - 1, by omega⟩
      simp only [receptorRun]
      have hr := receptorIter_rem_le header rest st
      simp only [List.length_cons] at hlen hf hg
      rw [ih (receptorIter header rest st).rem (by omega) f' g'
        (receptorIter header rest st).st (by omega) (by omega)]

lemma receptorLoop_nil (st : RState) :
    receptorLoop [] st = ({ st with checkpoint := none }, []) := rfl

lemma receptorLoop_cons (header : Nat) (rest : List Nat) (st : RState) :
    receptorLoop (header :: rest) st =
      ((receptorLoop (receptorIter header rest st).rem (receptorIter header rest st).st).1,
        (receptorIter header rest st).out ++
          (receptorLoop (receptorIter header rest st).rem
            (receptorIter header rest st).st).2) := by
  have hr := receptorIter_rem_le header rest st
  unfold receptorLoop
  simp only [List.length_cons]
  rw [show rest.length + 1 + 1 = (rest.length + 1) + 1 from rfl]
  simp only [receptorRun]
  rw [receptorRun_fuel_eq (receptorIter header rest st).rem.length
    (receptorIter header rest st).rem le_rfl (rest.length + 1)
    ((receptorIter header rest st).rem.length + 1)
    (receptorIter header rest st).st (by omega) (by omega)]

/-! ## Packing round-trip and CRC boundedness -/

lemma and_255_eq_mod (x : Nat) : x &&& 255 = x % 256 := by
  have h := Nat.and_pow_two_sub_one_eq_mod x 8
  norm_num at h
  exact h

lemma unpackLE4_packLE4 (v : Nat) (hv : v < 2 ^ 32) : unpackLE4 (packLE4 v) = v := by
  simp only [packLE4, unpackLE4, List.getD_cons_zero, List.getD_cons_succ,
    and_255_eq_mod, Nat.shiftRight_eq_div_pow]
  norm_num
  omega

lemma crcStep_lt (x : Nat) (hx : x < 2 ^ 32) : crcStep x < 2 ^ 32 := by
  have hdiv : x >>> 1 < 2 ^ 32 := by
    rw [Nat.shiftRight_eq_div_pow]
    have := Nat.div_le_self x (2 ^ 1)
    omega
  unfold crcStep
  split_ifs
  · exact Nat.xor_lt_two_pow hdiv (by decide)
  · exact hdiv

lemma crcStep_iterate_lt (n x : Nat) (hx : x < 2 ^ 32) : crcStep^[n] x < 2 ^ 32 := by
  induction n generalizing x with
  | zero => exact hx
  | succ n ih => rw [Function.iterate_succ_apply]; exact ih _ (crcStep_lt x hx)

lemma CRC_TABLE_getD_lt (i : Nat) : CRC_TABLE.getD i 0 < 2 ^ 32 := by
  by_cases h : i < 256
  · rw [CRC_TABLE_getD i h]
    exact crcStep_iterate_lt 8 i (by omega)
  · rw [List.getD_eq_default]
    · norm_num
    · have : CRC_TABLE.length = 256 := by decide
      omega

lemma crcByteUpdate_lt (crc b : Nat) (h : crc < 2 ^ 32) : crcByteUpdate crc b < 2 ^ 32 := by
  unfold crcByteUpdate
  refine Nat.xor_lt_two_pow ?_ (CRC_TABLE_getD_lt _)
  rw [Nat.shiftRight_eq_div_pow]
  have := Nat.div_le_self crc (2 ^ 8)
  omega

lemma crc_foldl_lt (data : List Nat) :
    ∀ crc, crc < 2 ^ 32 → data.foldl crcByteUpdate crc < 2 ^ 32 := by
  induction data with
  | nil => intro crc h; exact h
  | cons b rest ih =>
    intro crc h
    simp only [List.foldl_cons]
    exact ih _ (crcByteUpdate_lt crc b h)

lemma crcValue_lt (data : List Nat) : crcValue data < 2 ^ 32 := by
  unfold crcValue
  exact Nat.xor_lt_two_pow (crc_foldl_lt data 0xFFFFFFFF (by norm_num)) (by norm_num)

/-- Packet construction of the sender (src/protocolo.py line 164):
bytes([current_seq_num]) + crc_bytes + struct.pack('<I', data_len) +
data_buffer. -/
def encodePacket (seqn : Nat) (payload : List Nat) : List Nat :=
  [seqn] ++ calculate_crc32 payload ++ packLE4 payload.length ++ payload

/-- Evaluation of one receiver iteration on a well-formed DataPacket body:
after the crc, length and payload fields parse back, only the sequence test
distinguishes accept, duplicate re-ACK, and NAK. -/
lemma receptorIter_packet (seqn : Nat) (p rest : List Nat) (st : RState)
    (hlen : p.length < 2 ^ 32) :
    receptorIter seqn (calculate_crc32 p ++ (packLE4 p.length ++ (p ++ rest))) st =
      if (seqn : Int) ≠ st.expected_seq then
        if (seqn : Int) = 1 - st.expected_seq then ⟨rest, st, [ACK_CHAR], none⟩
        else ⟨rest, st, [NAK_CHAR], none⟩
      else
        ⟨rest,
         ⟨1 - st.expected_seq, st.current_block + 1, st.file ++ p,
           some (st.current_block + 1)⟩,
         [ACK_CHAR], some p⟩ := by
  have hC : (calculate_crc32 p).length = 4 := rfl
  have hL : (packLE4 p.length).length = 4 := rfl
  have htake8 :
      (calculate_crc32 p ++ (packLE4 p.length ++ (p ++ rest))).take 8 =
        calculate_crc32 p ++ packLE4 p.length := by
    rw [← List.append_assoc]
    exact List.take_left' (by rw [List.length_append, hC, hL])
  have hdrop8 :
      (calculate_crc32 p ++ (packLE4 p.length ++ (p ++ rest))).drop 8 = p ++ rest := by
    rw [← List.append_assoc]
    exact List.drop_left' (by rw [List.length_append, hC, hL])
  have htake4 : (calculate_crc32 p ++ packLE4 p.length).take 4 = calculate_crc32 p :=
    List.take_left' hC
  have hdrop4 : (calculate_crc32 p ++ packLE4 p.length).drop 4 = packLE4 p.length :=
    List.drop_left' hC
  have hdl : unpackLE4 (packLE4 p.length) = p.length := unpackLE4_packLE4 _ hlen
  have hdata : (p ++ rest).take p.length = p := List.take_left' rfl
  have hrem : (p ++ rest).drop p.length = rest := List.drop_left' rfl
  simp only [receptorIter, htake8, hdrop8, htake4, hdrop4, hdl, hdata, hrem]
  rw [if_neg (by rw [List.length_append, hC, hL]; omega)]
  rw [if_neg (by omega)]
  rw [if_neg (by simp)]

/-- C1: the source receiver never recognises the EndMarker.  When the bytes
END followed by a newline arrive at a packet boundary in the Receiving
state (here after three accepted blocks with checkpoint 3), the receiver
replies with a NAK ('N' = 78) because the 8-byte header remainder is short;
it reaches the file-close and checkpoint-removal code only through the
subsequent header timeout (the loop-exit path), not through any EndMarker
handling.  This contradicts the claim that the bytes are treated as an
EndMarker and answered without a NAK. -/
theorem receptor_end_marker_gets_nak :
    receptorLoop END_SIGNAL ⟨1, 3, [1, 2, 3], some 3⟩ =
      (⟨1, 3, [1, 2, 3], none⟩, [NAK_CHAR]) := by decide

/-- C2: a session that ends by the inter-packet header timeout without any
EndMarker still deletes its checkpoint.  One valid DataPacket (seq 0,
payload [42]) is accepted — block counter 1, file [42], checkpoint
written — and then the input ends (the 10 s timeout); the code after the
loop unconditionally removes the checkpoint, so the final checkpoint is
none, contradicting the claim that it is preserved.  The partial output
[42] is preserved. -/
theorem receptor_timeout_removes_checkpoint :
    receptorLoop ([0] ++ calculate_crc32 [42] ++ [1, 0, 0, 0] ++ [42]) ⟨0, 0, [], none⟩ =
      (⟨1, 1, [42], none⟩, [ACK_CHAR]) := by decide

/-- C5 counterexample: a DataPacket header declaring payload_len = 101,
outside [1, BLOCK_SIZE], whose 101 payload bytes all arrive and whose CRC
matches, is accepted by the receiver: it answers 'A' (not 'N'), writes the
101 bytes, increments the block counter and saves the checkpoint.  The
receiver has no range check on the declared length. -/
theorem receptor_accepts_oversized_payload :
    receptorIter 0
        (calculate_crc32 (List.replicate 101 7) ++
          ([101, 0, 0, 0] ++ List.replicate 101 7))
        ⟨0, 0, [], none⟩ =
      ⟨[], ⟨1, 1, List.replicate 101 7, some 1⟩, [ACK_CHAR],
        some (List.replicate 101 7)⟩ := by decide

/-- C5 amended: the receiver rejects a declared payload length only through
the payload-completion deadline: whenever fewer payload bytes than the
declared payload_len arrive before the read deadline, it sends 'N' and
stays in its current state, with nothing written and no checkpoint
update. -/
theorem receptor_short_payload_nak (header : Nat) (rest : List Nat) (st : RState)
    (h8 : 8 ≤ rest.length)
    (hshort : (rest.drop 8).length < unpackLE4 ((rest.take 8).drop 4)) :
    receptorIter header rest st = ⟨[], st, [NAK_CHAR], none⟩ := by
  have htl : (rest.take 8).length = 8 := by
    rw [List.length_take]
    omega
  simp only [receptorIter, htl]
  rw [if_neg (by omega)]
  rw [if_pos]
  · congr 1
    rw [List.drop_eq_nil_of_le]
    omega
  · rw [List.length_take]
    omega

/-- Witness for the C5 amended theorem: a header declaring 101 payload
bytes of which only three arrive is answered with NAK and an unchanged
state. -/
theorem receptor_short_payload_nak_witness :
    (8 ≤ ([0, 0, 0, 0, 101, 0, 0, 0, 1, 2, 3] : List Nat).length ∧
      (([0, 0, 0, 0, 101, 0, 0, 0, 1, 2, 3] : List Nat).drop 8).length <
        unpackLE4 ((([0, 0, 0, 0, 101, 0, 0, 0, 1, 2, 3] : List Nat).take 8).drop 4)) ∧
      receptorIter 0 [0, 0, 0, 0, 101, 0, 0, 0, 1, 2, 3] ⟨0, 0, [], none⟩ =
        ⟨[], ⟨0, 0, [], none⟩, [NAK_CHAR], none⟩ :=
  ⟨⟨by decide, by decide⟩,
   receptor_short_payload_nak 0 [0, 0, 0, 0, 101, 0, 0, 0, 1, 2, 3]
     ⟨0, 0, [], none⟩ (by decide) (by decide)⟩

/-- C6: duplicate suppression.  A DataPacket that parses and passes the CRC
check but carries the previously acknowledged sequence bit (seq equal to
1 - expected_seq) makes the receiver re-emit 'A' and continue with the
output file, checkpoint, block counter and expected_seq all unchanged: the
session on the duplicate packet followed by any further input equals the
session on the further input alone, with one extra leading 'A'. -/
theorem receptor_duplicate_suppression (st : RState) (seqn : Nat)
    (payload rest : List Nat) (hlen : payload.length < 2 ^ 32)
    (hdup : (seqn : Int) = 1 - st.expected_seq) :
    receptorLoop (encodePacket seqn payload ++ rest) st =
      ((receptorLoop rest st).1, ACK_CHAR :: (receptorLoop rest st).2) := by
  have hne : (seqn : Int) ≠ st.expected_seq := by omega
  have hshape : encodePacket seqn payload ++ rest =
      seqn :: (calculate_crc32 payload ++ (packLE4 payload.length ++ (payload ++ rest))) := by
    simp [encodePacket, List.append_assoc]
  rw [hshape, receptorLoop_cons, receptorIter_packet seqn payload rest st hlen,
    if_pos hne, if_pos hdup]
  rfl

/-- Witness for C6: from a state with expected_seq 0, five accepted blocks
and checkpoint 5, a duplicate packet with seq 1 is answered 'A' and the
state is unchanged except for the loop-exit checkpoint removal of the empty
remaining session. -/
theorem receptor_duplicate_suppression_witness :
    (([42] : List Nat).length < 2 ^ 32 ∧ ((1 : Nat) : Int) = 1 - (0 : Int)) ∧
      receptorLoop (encodePacket 1 [42] ++ []) ⟨0, 5, [9], some 5⟩ =
        ((receptorLoop [] ⟨0, 5, [9], some 5⟩).1,
          ACK_CHAR :: (receptorLoop [] ⟨0, 5, [9], some 5⟩).2) :=
  ⟨⟨by norm_num, by norm_num⟩,
   receptor_duplicate_suppression ⟨0, 5, [9], some 5⟩ 1 [42] [] (by norm_num)
     (by norm_num)⟩

/-- C10: a DataPacket header with payload_len = 0, CRC field equal to the
CRC-32 of the empty byte string (which is 0, so the whole header after the
seq byte is eight zero bytes) and seq equal to expected_seq is accepted:
the receiver writes zero bytes, increments the block counter to 1, saves
checkpoint 1, answers 'A' and flips expected_seq to 1 — the checkpoint now
counts a block of which no byte is persisted.  The trace form shows the
checkpoint value 1 paired with the single accepted payload, which is
empty. -/
theorem receptor_accepts_empty_payload :
    receptorIter 0 [0, 0, 0, 0, 0, 0, 0, 0] ⟨0, 0, [], none⟩ =
        ⟨[], ⟨1, 1, [], some 1⟩, [ACK_CHAR], some []⟩ ∧
      receptorTrace [0, 0, 0, 0, 0, 0, 0, 0, 0] ⟨0, 0, [], none⟩ =
        [(⟨1, 1, [], some 1⟩, [[]])] :=
  ⟨by decide, by decide⟩

/-! ## C8: checkpoint / file invariant of the receiver -/

lemma receptorIter_state_cases (header : Nat) (rest : List Nat) (st : RState) :
    ((receptorIter header rest st).st = st ∧ (receptorIter header rest st).written = none) ∨
      (∃ d, (receptorIter header rest st).written = some d ∧
        (receptorIter header rest st).st =
          ⟨1 - st.expected_seq, st.current_block + 1, st.file ++ d,
            some (st.current_block + 1)⟩) := by
  simp only [receptorIter]
  split_ifs <;>
    first
      | exact Or.inl ⟨rfl, rfl⟩
      | exact Or.inr ⟨_, rfl, rfl⟩

lemma receptorTraceRun_invariant :
    ∀ (fuel : Nat) (input : List Nat) (st : RState) (acc : List (List Nat)),
      st.file = acc.join → st.current_block = acc.length →
      (∀ m, st.checkpoint = some m → m = st.current_block) →
      ∀ p ∈ receptorTraceRun fuel input st acc,
        p.1.file = p.2.join ∧ p.1.current_block = p.2.length ∧
          ∀ n, p.1.checkpoint = some n → n = p.1.current_block := by
  intro fuel
  induction fuel with
  | zero =>
    intro input st acc _ _ _ p hp
    simp [receptorTraceRun] at hp
  | succ fuel ih =>
    intro input st acc hfile hblock hchk p hp
    cases input with
    | nil => simp [receptorTraceRun] at hp
    | cons header rest =>
      simp only [receptorTraceRun] at hp
      rcases receptorIter_state_cases header rest st with ⟨hst, hw⟩ | ⟨d, hw, hst⟩
      · rw [hw] at hp
        rcases List.mem_cons.mp hp with rfl | hp
        · rw [hst]
          exact ⟨hfile, hblock, hchk⟩
        · exact ih (receptorIter header rest st).rem (receptorIter header rest st).st acc
            (by rw [hst]; exact hfile) (by rw [hst]; exact hblock)
            (by rw [hst]; exact hchk) p hp
      · rw [hw] at hp
        have hfile2 : (receptorIter header rest st).st.file = (acc ++ [d]).join := by
          rw [hst]
          simp [hfile]
        have hblock2 : (receptorIter header rest st).st.current_block = (acc ++ [d]).length := by
          rw [hst]
          simp [hblock]
        have hchk2 : ∀ m, (receptorIter header rest st).st.checkpoint = some m →
            m = (receptorIter header rest st).st.current_block := by
          rw [hst]
          intro m hm
          simpa using hm.symm
        rcases List.mem_cons.mp hp with rfl | hp
        · exact ⟨hfile2, hblock2, hchk2⟩
        · exact ih (receptorIter header rest st).rem (receptorIter header rest st).st
            (acc ++ [d]) hfile2 hblock2 hchk2 p hp

/-- C8: invariant of the receiver state machine for a fresh session (block
counter 0, empty output, no checkpoint).  At every point of the
instrumented trace where the checkpoint holds a value n — which happens
exactly at the save that ends each accepting iteration, the payload having
been written first — n equals the block counter, n equals the number of
accepted blocks, and the output file is exactly the concatenation of the
accepted payloads in order, nothing else. -/
theorem receptor_checkpoint_matches_file (input : List Nat) (e : Int)
    (p : RState × List (List Nat)) (hp : p ∈ receptorTrace input ⟨e, 0, [], none⟩)
    (n : Nat) (hchk : p.1.checkpoint = some n) :
    n = p.1.current_block ∧ p.1.current_block = p.2.length ∧ p.1.file = p.2.join := by
  have h := receptorTraceRun_invariant (input.length + 1) input ⟨e, 0, [], none⟩ []
    rfl rfl (by intro m hm; simp at hm) p hp
  exact ⟨h.2.2 n hchk, h.2.1, h.1⟩

/-- Witness for C8: on the session consisting of one accepted packet with
payload [5], the trace entry has checkpoint 1, block counter 1, one
accepted payload, and file contents [5]. -/
theorem receptor_checkpoint_matches_file_witness :
    ((⟨⟨1, 1, [5], some 1⟩, [[5]]⟩ : RState × List (List Nat)) ∈
        receptorTrace (encodePacket 0 [5]) ⟨0, 0, [], none⟩ ∧
      (⟨⟨1, 1, [5], some 1⟩, [[5]]⟩ : RState × List (List Nat)).1.checkpoint = some 1) ∧
      (1 = 1 ∧ 1 = [[5]].length ∧ [5] = [[5]].join) :=
  ⟨⟨by decide, by decide⟩,
   by
     have h := receptor_checkpoint_matches_file (encodePacket 0 [5]) 0
       ⟨⟨1, 1, [5], some 1⟩, [[5]]⟩ (by decide) 1 (by decide)
     simpa using h⟩

/-! ## Sender state machine (src/protocolo.py lines 113-197)

The responses the sender reads are modelled by the list of results of the
successive receive_with_timeout(ser, 1, TIMEOUT_SEC) calls: [65] is an ACK
byte, [78] a NAK byte, [] a timeout, anything else an unexpected byte.  An
exhausted list models timeouts from then on. -/

/-- Retry loop for one block (lines 166-179), indexed by the number of
attempts still available: remaining = MAX_RETRANS - retries, so the Python
guard retries < MAX_RETRANS is remaining > 0.  Returns (ack_ok, the
responses left, the number of times the packet was written).  Each loop
iteration writes the packet once and reads one response; a response equal
to b'A' ends the loop with success, and both the b'N' branch and the
timeout branch of the source only increment retries. -/
def emissorRetryAux : Nat → List (List Nat) → Bool × List (List Nat) × Nat
  | 0, responses => (false, responses, 0)
  | remaining + 1, responses =>
      let response := responses.headD []
      let rest := responses.tail
      if response = [ACK_CHAR] then (true, rest, 1)
      else
        let r := emissorRetryAux remaining rest
        (r.1, r.2.1, r.2.2 + 1)

/-- Number of blocks of a file (line 117):
(file_size + BLOCK_SIZE - 1) // BLOCK_SIZE. -/
def total_blocks (file : List Nat) : Nat :=
  (file.length + BLOCK_SIZE - 1) / BLOCK_SIZE

/-- The data loop of the sender (lines 146-186), indexed by the number of
blocks left to send: the Python loop guard current_block_to_send <=
total_blocks - 1, evaluated over Python integers, holds exactly when
current < total_blocks, so the remaining count total_blocks - current is
the loop variant and is zero exactly when the guard fails.  Each iteration
reads the next BLOCK_SIZE bytes at offset current * BLOCK_SIZE (the file
pointer was seeked to the resume offset and advances with every read),
breaks if the read is empty, builds the packet, and runs the retry loop
with a fresh retries = 0 budget; on success the block index advances and
the sequence bit flips, otherwise the loop aborts.  Returns the packets
written in order (retransmissions included) and the final
current_block_to_send. -/
def emissorDataAux : Nat → List Nat → Nat → Nat → List (List Nat) → List (List Nat) × Nat
  | 0, _, current, _, _ => ([], current)
  | fuel + 1, file, current, seqn, responses =>
      let data := (file.drop (current * BLOCK_SIZE)).take BLOCK_SIZE
      if data.length = 0 then ([], current)
      else
        let packet := encodePacket seqn data
        let r := emissorRetryAux MAX_RETRANS responses
        if r.1 then
          let next := emissorDataAux fuel file (current + 1) (1 - seqn) r.2.1
          (List.replicate r.2.2 packet ++ next.1, next.2)
        else
          (List.replicate r.2.2 packet, current)

/-- The sender after a valid ACK_STATUS:<n> reply (lines 146-190): seek to
n * BLOCK_SIZE, start with sequence bit n % 2, run the data loop, and send
END (line 190) exactly when the final current_block_to_send has reached
total_blocks. -/
def emissorAfterHandshake (file : List Nat) (n : Nat) (responses : List (List Nat)) :
    List (List Nat) :=
  let total := total_blocks file
  let r := emissorDataAux (total - n) file n (n % 2) responses
  if total ≤ r.2 then r.1 ++ [END_SIGNAL] else r.1

example :
    emissorAfterHandshake [1, 2, 3] 0 [[65]] =
      [encodePacket 0 [1, 2, 3], END_SIGNAL] := by decide

example : emissorAfterHandshake [] 0 [] = [END_SIGNAL] := by decide

example : emissorAfterHandshake [1, 2, 3] 7 [] = [END_SIGNAL] := by decide

/-! ## C7: resume offset and exact block range -/

lemma block_nonempty (file : List Nat) (current : Nat) (h : current < total_blocks file) :
    ¬((file.drop (current * BLOCK_SIZE)).take BLOCK_SIZE).length = 0 := by
  rw [List.length_take, List.length_drop]
  simp only [total_blocks, BLOCK_SIZE] at h ⊢
  omega

lemma emissorRetryAux_ack (rest : List (List Nat)) :
    emissorRetryAux MAX_RETRANS ([ACK_CHAR] :: rest) = (true, rest, 1) := rfl


lemma emissorDataAux_all_acks :
    ∀ (m : Nat) (file : List Nat) (current : Nat), m = total_blocks file - current →
      emissorDataAux m file current (current % 2) (List.replicate m [ACK_CHAR]) =
        ((List.range' current m).map (fun i => encodePacket (i % 2)
          ((file.drop (i * BLOCK_SIZE)).take BLOCK_SIZE)), current + m) := by
  intro m
  induction m with
  | zero =>
    intro file current h
    simp [emissorDataAux]
  | succ m ih =>
    intro file current h
    have hcur : current < total_blocks file := by omega
    have hne := block_nonempty file current hcur
    have hflip : 1 - current % 2 = (current + 1) % 2 := by omega
    simp only [emissorDataAux, List.replicate_succ]
    rw [if_neg hne, emissorRetryAux_ack]
    dsimp only
    rw [if_pos rfl, hflip, ih file (current + 1) (by omega)]
    dsimp only
    rw [List.range'_succ, List.map_cons, List.replicate_one, List.singleton_append]
    congr 1
    omega

/-- C7: after a handshake in which the sender receives a valid
ACK_STATUS:<n> reply, it seeks to n * BLOCK_SIZE and, when every data
packet is answered with ACK, transmits exactly the blocks with indices in
[n, total_blocks) — block i carrying sequence bit i % 2 and the file bytes
from offset i * BLOCK_SIZE — followed by END.  For n ≥ total_blocks the
range is empty (this includes the empty-file case total_blocks = 0), so
zero data packets are sent and the output is exactly the END signal. -/
theorem emissor_ack_status_resume (file : List Nat) (n : Nat) :
    emissorAfterHandshake file n (List.replicate (total_blocks file - n) [ACK_CHAR]) =
      (List.range' n (total_blocks file - n)).map
        (fun i => encodePacket (i % 2) ((file.drop (i * BLOCK_SIZE)).take BLOCK_SIZE))
        ++ [END_SIGNAL] := by
  simp only [emissorAfterHandshake]
  rw [emissorDataAux_all_acks (total_blocks file - n) file n rfl]
  dsimp only
  rw [if_pos (by omega)]

lemma encodePacket_length (seqn : Nat) (p : List Nat) :
    (encodePacket seqn p).length = 9 + p.length := by
  simp [encodePacket, calculate_crc32, packLE4]
  omega

lemma emissorRetryAux_bads :
    ∀ (bads : List (List Nat)) (fuel : Nat) (rest : List (List Nat)),
      bads.length < fuel → (∀ b ∈ bads, b ≠ [ACK_CHAR]) →
      emissorRetryAux fuel (bads ++ [ACK_CHAR] :: rest) = (true, rest, bads.length + 1) := by
  intro bads
  induction bads with
  | nil =>
    intro fuel rest hf hb
    obtain ⟨f, rfl⟩ : ∃ f, fuel = f + 1 := ⟨fuel - 1, by omega⟩
    simp [emissorRetryAux]
  | cons b bads ih =>
    intro fuel rest hf hb
    obtain ⟨f, rfl⟩ : ∃ f, fuel = f + 1 := ⟨fuel - 1, by omega⟩
    have hbne : b ≠ [ACK_CHAR] := hb b (List.mem_cons_self b bads)
    simp only [List.cons_append, emissorRetryAux, List.headD_cons, List.tail_cons]
    rw [if_neg hbne, ih f rest (by simp only [List.length_cons] at hf; omega)
      (fun x hx => hb x (List.mem_cons_of_mem b hx))]
    simp [List.length_cons]

lemma emissorRetryAux_all_naks :
    emissorRetryAux MAX_RETRANS (List.replicate 5 [NAK_CHAR]) = (false, [], 5) := rfl

/-- C9: the per-block ARQ policy of the sender.  First conjunct: an ACK
response makes the sender send the packet exactly once, advance to the
next block, flip the sequence bit and restart the attempt budget at
MAX_RETRANS (retries = 0).  Second conjunct: any run of non-ACK responses
(NAK bytes, timeouts, or other bytes) shorter than MAX_RETRANS makes the
sender retransmit the identical packet once per failure, using
failures + 1 transmissions in total.  Third conjunct: five failed attempts
on the first block abort the transfer — the sender emits exactly five
copies of the same packet and never emits END. -/
theorem emissor_retransmission_policy :
    (∀ (fuel : Nat) (file : List Nat) (current seqn : Nat) (rest : List (List Nat)),
        ¬((file.drop (current * BLOCK_SIZE)).take BLOCK_SIZE).length = 0 →
        emissorDataAux (fuel + 1) file current seqn ([ACK_CHAR] :: rest) =
          (encodePacket seqn ((file.drop (current * BLOCK_SIZE)).take BLOCK_SIZE) ::
              (emissorDataAux fuel file (current + 1) (1 - seqn) rest).1,
            (emissorDataAux fuel file (current + 1) (1 - seqn) rest).2)) ∧
    (∀ (bads rest : List (List Nat)), (∀ b ∈ bads, b ≠ [ACK_CHAR]) →
        bads.length < MAX_RETRANS →
        emissorRetryAux MAX_RETRANS (bads ++ [ACK_CHAR] :: rest) =
          (true, rest, bads.length + 1)) ∧
    (∀ file : List Nat, file ≠ [] →
        emissorAfterHandshake file 0 (List.replicate 5 [NAK_CHAR]) =
          List.replicate 5 (encodePacket 0 (file.take BLOCK_SIZE)) ∧
        END_SIGNAL ∉ emissorAfterHandshake file 0 (List.replicate 5 [NAK_CHAR])) := by
  refine ⟨?_, ?_, ?_⟩
  · intro fuel file current seqn rest hne
    simp only [emissorDataAux]
    rw [if_neg hne, emissorRetryAux_ack]
    dsimp only
    rw [if_pos rfl, List.replicate_one, List.singleton_append]
  · intro bads rest hb hlen
    exact emissorRetryAux_bads bads MAX_RETRANS rest hlen hb
  · intro file hfile
    have hflen : file.length ≠ 0 := by simpa using hfile
    have htot : 1 ≤ total_blocks file := by
      simp only [total_blocks, BLOCK_SIZE]
      omega
    have hne : ¬((file.take BLOCK_SIZE).length = 0) := by
      rw [List.length_take]
      simp only [BLOCK_SIZE]
      omega
    have heq : emissorAfterHandshake file 0 (List.replicate 5 [NAK_CHAR]) =
        List.replicate 5 (encodePacket 0 (file.take BLOCK_SIZE)) := by
      simp only [emissorAfterHandshake, Nat.sub_zero]
      obtain ⟨t, ht⟩ : ∃ t, total_blocks file = t + 1 := ⟨total_blocks file - 1, by omega⟩
      rw [ht]
      simp only [emissorDataAux, Nat.zero_mul, List.drop_zero]
      rw [if_neg hne, emissorRetryAux_all_naks]
      dsimp only
      rw [if_neg (by simp)]
      norm_num
    refine ⟨heq, ?_⟩
    rw [heq]
    intro hmem
    have hpkt := List.eq_of_mem_replicate hmem
    have hlen := encodePacket_length 0 (file.take BLOCK_SIZE)
    rw [← hpkt] at hlen
    simp [END_SIGNAL] at hlen
    have h9 : 9 ≤ 9 + BLOCK_SIZE ⊓ file.length := Nat.le_add_right 9 _
    omega

/-- Witness for C9: a one-byte file whose single block is ACKed at once;
a NAK followed by an ACK giving two transmissions; and five NAKs on a
one-byte file giving five identical packets and no END. -/
theorem emissor_retransmission_policy_witness :
    (¬((([7] : List Nat).drop (0 * BLOCK_SIZE)).take BLOCK_SIZE).length = 0 ∧
      emissorDataAux 1 [7] 0 0 ([ACK_CHAR] :: []) =
        (encodePacket 0 ((([7] : List Nat).drop (0 * BLOCK_SIZE)).take BLOCK_SIZE) ::
            (emissorDataAux 0 [7] (0 + 1) (1 - 0) []).1,
          (emissorDataAux 0 [7] (0 + 1) (1 - 0) []).2)) ∧
    ((∀ b ∈ ([[78]] : List (List Nat)), b ≠ [ACK_CHAR]) ∧
      ([[78]] : List (List Nat)).length < MAX_RETRANS ∧
      emissorRetryAux MAX_RETRANS (([[78]] : List (List Nat)) ++ [ACK_CHAR] :: []) =
        (true, [], ([[78]] : List (List Nat)).length + 1)) ∧
    (([7] : List Nat) ≠ [] ∧
      emissorAfterHandshake [7] 0 (List.replicate 5 [NAK_CHAR]) =
        List.replicate 5 (encodePacket 0 (([7] : List Nat).take BLOCK_SIZE)) ∧
      END_SIGNAL ∉ emissorAfterHandshake [7] 0 (List.replicate 5 [NAK_CHAR])) :=
  ⟨⟨by decide, emissor_retransmission_policy.1 0 [7] 0 0 [] (by decide)⟩,
   ⟨by decide, by decide,
    emissor_retransmission_policy.2.1 [[78]] [] (by decide) (by decide)⟩,
   ⟨by decide, (emissor_retransmission_policy.2.2 [7] (by decide)).1,
    (emissor_retransmission_policy.2.2 [7] (by decide)).2⟩⟩

/-- C4: the encoded DataPacket is exactly
seq (1 byte) | crc32 of the payload only (4 bytes little-endian) |
payload_len (4 bytes little-endian, the payload length) | payload, with no
padding: the total length is 9 + payload_len, byte 0 is seq, bytes 1-4
decode to the CRC-32 of the payload, bytes 5-8 decode to the payload
length, and the rest is the payload itself. -/
theorem dataPacket_wire_layout (seqn : Nat) (p : List Nat) (hp : p.length < 2 ^ 32) :
    (encodePacket seqn p).length = 9 + p.length ∧
    (encodePacket seqn p).take 1 = [seqn] ∧
    ((encodePacket seqn p).drop 1).take 4 = calculate_crc32 p ∧
    unpackLE4 (((encodePacket seqn p).drop 1).take 4) = crcValue p ∧
    unpackLE4 (((encodePacket seqn p).drop 5).take 4) = p.length ∧
    (encodePacket seqn p).drop 9 = p := by
  have hC : (calculate_crc32 p).length = 4 := rfl
  have hL : (packLE4 p.length).length = 4 := rfl
  have hshape1 : encodePacket seqn p =
      [seqn] ++ (calculate_crc32 p ++ (packLE4 p.length ++ p)) := by
    simp [encodePacket, List.append_assoc]
  have hshape5 : encodePacket seqn p =
      ([seqn] ++ calculate_crc32 p) ++ (packLE4 p.length ++ p) := by
    simp [encodePacket, List.append_assoc]
  have hshape9 : encodePacket seqn p =
      (([seqn] ++ calculate_crc32 p) ++ packLE4 p.length) ++ p := by
    simp [encodePacket, List.append_assoc]
  have hd1 : (encodePacket seqn p).drop 1 =
      calculate_crc32 p ++ (packLE4 p.length ++ p) := by
    rw [hshape1]
    exact List.drop_left' rfl
  have hcrcfield : ((encodePacket seqn p).drop 1).take 4 = calculate_crc32 p := by
    rw [hd1]
    exact List.take_left' hC
  refine ⟨encodePacket_length seqn p, ?_, hcrcfield, ?_, ?_, ?_⟩
  · rw [hshape1]
    exact List.take_left' rfl
  · rw [hcrcfield]
    exact unpackLE4_packLE4 _ (crcValue_lt p)
  · rw [hshape5, List.drop_left' (by simp [hC]), List.take_left' hL]
    exact unpackLE4_packLE4 _ hp
  · rw [hshape9]
    exact List.drop_left' (by simp [hC, hL])

/-- Witness for C4 on the packet with seq 1 and payload [171]. -/
theorem dataPacket_wire_layout_witness :
    (([171] : List Nat).length < 2 ^ 32) ∧
      ((encodePacket 1 [171]).length = 9 + ([171] : List Nat).length ∧
        (encodePacket 1 [171]).take 1 = [1] ∧
        ((encodePacket 1 [171]).drop 1).take 4 = calculate_crc32 [171] ∧
        unpackLE4 (((encodePacket 1 [171]).drop 1).take 4) = crcValue [171] ∧
        unpackLE4 (((encodePacket 1 [171]).drop 5).take 4) = ([171] : List Nat).length ∧
        (encodePacket 1 [171]).drop 9 = [171]) :=
  ⟨by decide, dataPacket_wire_layout 1 [171] (by decide)⟩
